import Mathlib

set_option maxHeartbeats 1000000

/-! Verification development for the Spoke editor core
    (src/client/editor/Editor.js).  The Editor's scene-graph mutation
    operations, component registry, helper map, file-dependency tracker,
    scene replacement and clone-and-inflate duplication are shallowly
    embedded below; the component class files live outside the provided
    sources, so the small registered-component capability surface they
    provide is modelled from the specification and marked as such. -/

/-- Generic component record: the plain object constructed by
    addComponent's unregistered branch (Editor.js lines 466-469), with
    the shouldSave flag set after construction (line 478).  The props
    value is opaque and carried as a number. -/
structure GenComp where
  name : String
  props : Nat
  shouldSave : Bool
deriving DecidableEq, Repr

/-- Modelled from the spec: a registered component instance attached to a
    node by its component class (SceneReferenceComponent and its peers are
    outside src/).  A class stores at most one instance per node and the
    instance exposes string-keyed properties via getProperty. -/
structure RegComp where
  className : String
  props : List (String × String)
deriving DecidableEq, Repr

/-- Node kinds distinguished by addHelper's instanceof chain
    (Editor.js lines 380-395); every other kind gets no helper. -/
inductive NodeKind where
  | camera
  | pointLight
  | directionalLight
  | spotLight
  | hemisphereLight
  | skinnedMesh
  | other
deriving DecidableEq, Repr

/-- Scene node: identity, kind, the optional geometry/material uuids read
    by addObject's traversal, the registered component instances, the
    userData._components generic list (absent until lazily created by
    addComponent), the userData._inflated marker, the
    userData._selectionRoot tag and the ordered children. -/
inductive Node where
  | node (id : Nat) (kind : NodeKind) (geometryUuid : Option String)
      (materialUuid : Option String) (regComps : List RegComp)
      (genComps : Option (List GenComp)) (inflated : Bool)
      (selectionRootId : Option Nat) (children : List Node)
deriving Repr

def Node.id : Node → Nat
  | .node i _ _ _ _ _ _ _ _ => i

def Node.kind : Node → NodeKind
  | .node _ k _ _ _ _ _ _ _ => k

def Node.geometryUuid : Node → Option String
  | .node _ _ g _ _ _ _ _ _ => g

def Node.materialUuid : Node → Option String
  | .node _ _ _ m _ _ _ _ _ => m

def Node.regComps : Node → List RegComp
  | .node _ _ _ _ rc _ _ _ _ => rc

def Node.genComps : Node → Option (List GenComp)
  | .node _ _ _ _ _ gc _ _ _ => gc

def Node.inflated : Node → Bool
  | .node _ _ _ _ _ _ inf _ _ => inf

def Node.children : Node → List Node
  | .node _ _ _ _ _ _ _ _ cs => cs

/-- Preorder listing of a forest: each root first, then its descendants,
    matching three.js Object3D.traverse (callback on the object, then on
    each child recursively, in order). -/
def subtreeNodesList : List Node → List Node
  | [] => []
  | Node.node i k g m rc gc inf sr cs :: rest =>
    Node.node i k g m rc gc inf sr cs :: (subtreeNodesList cs ++ subtreeNodesList rest)

/-- Preorder listing of the subtree rooted at a node. -/
def Node.subtreeNodes (n : Node) : List Node := subtreeNodesList [n]

/-- Type name of the scene-reference component class.  Modelled from the
    spec: SceneReferenceComponent.componentName is defined outside src/;
    only its identity matters here. -/
def sceneReferenceName : String := "scene-reference"

/-- Reference returned by getComponent: either a registered class instance
    or a generic list entry. -/
inductive ComponentRef where
  | registered (c : RegComp)
  | generic (c : GenComp)
deriving DecidableEq, Repr

/-- Editor.getComponent (Editor.js lines 500-506).  The registered branch
    delegates to the class's getComponent, modelled from the spec as the
    node's instance of that class (at most one per node).  The generic
    branch reads object.userData._components.find(...) directly: when the
    list was never created the read throws, embedded as an error. -/
def getComponent (registry : List String) (object : Node) (componentName : String) :
    Except String (Option ComponentRef) :=
  if registry.contains componentName then
    Except.ok ((object.regComps.find? (fun c => c.className == componentName)).map
      ComponentRef.registered)
  else
    match object.genComps with
    | none => Except.error "TypeError: object.userData._components is undefined"
    | some l =>
      Except.ok ((l.find? (fun c => c.name == componentName)).map ComponentRef.generic)

/-- JavaScript Array.prototype.splice(start, 1) on a list: a negative
    start is clamped to max(length + start, 0), a large start to length,
    then one element at the resulting index is removed. -/
def spliceOne {α : Type} (l : List α) (start : Int) : List α :=
  let len : Int := l.length
  let actual : Nat := (if start < 0 then max (len + start) 0 else min start len).toNat
  l.take actual ++ l.drop (actual + 1)

/-- JavaScript Array.prototype.findIndex on the generic component list:
    index of the first entry with the given name, or -1. -/
def findIndexByName (l : List GenComp) (componentName : String) : Int :=
  match l.findIdx? (fun c => c.name == componentName) with
  | some i => (i : Int)
  | none => -1

/-- Registered component class entry for the registry Map.  The tag
    distinguishes distinct class values with the same type name. -/
structure CompClass where
  componentName : String
  tag : Nat
deriving DecidableEq, Repr

/-- Editor.registerComponent (Editor.js lines 446-454) in mutation style:
    the result pairs the registry after the call with the thrown error
    message, if any.  A duplicate type name throws before the Map is
    touched; a fresh name is appended (Map.set with a new key). -/
def registerComponent (components : List (String × CompClass)) (c : CompClass) :
    List (String × CompClass) × Option String :=
  if (List.lookup c.componentName components).isSome then
    (components, some (c.componentName ++ " already registered"))
  else
    (components ++ [(c.componentName, c)], none)

/-- Loop body of _cloneAndInflate's component re-attachment
    (Editor.js lines 610-614): for...of over clone.userData._components
    calling addComponent(clone, component.name, component.props).  The
    JavaScript array iterator re-reads the array's length on every step,
    and addComponent's unregistered branch (lines 465-476) pushes a fresh
    name/props record onto that same array, so the iteration index chases
    a growing length; the fuel argument makes the loop total in the
    embedding, returning none when fuel runs out before the index catches
    the length.  A registered name instead delegates to the class's
    inflate, which attaches through the class and leaves the generic list
    alone. -/
def inflateComponentsLoop (registry : List String) :
    Nat → List GenComp → Nat → Option (List GenComp)
  | 0, _, _ => none
  | Nat.succ fuel, comps, i =>
    if h : i < comps.length then
      let c := comps.get ⟨i, h⟩
      let comps' := if registry.contains c.name then comps
                    else comps ++ [⟨c.name, c.props, true⟩]
      inflateComponentsLoop registry fuel comps' (i + 1)
    else
      some comps

/-- Writes the userData._selectionRoot tag placed on each child clone
    (Editor.js line 620). -/
def setSelectionRoot : Node → Nat → Node
  | Node.node i k g m rc gc inf _ cs, r => Node.node i k g m rc gc inf (some r) cs

/-- Runs the component re-attachment loop on a clone's copied generic
    list: an absent list skips the loop, a present list runs it from index
    0; none propagates a loop that never finished. -/
def inflateComps (registry : List String) (gc : Option (List GenComp)) (fuel : Nat) :
    Option (Option (List GenComp)) :=
  match gc with
  | none => some none
  | some l => Option.map some (inflateComponentsLoop registry fuel l 0)

mutual

/-- Editor._cloneAndInflate (Editor.js lines 608-623).  object.clone(false)
    is the three.js shallow clone whose copy() deep-copies userData through
    a JSON round trip, so the clone starts with value-copies of the source's
    generic components (and drops the non-enumerable _selectionRoot tag);
    the component loop then re-attaches each listed component via
    addComponent, and the children are cloned recursively, skipping
    children marked _inflated and tagging each child clone with the
    duplication root.  A none anywhere records a loop that never
    terminated. -/
def cloneAndInflate (registry : List String) (object : Node) (root : Option Nat)
    (fuel : Nat) : Option Node :=
  match object with
  | Node.node i k g m rc gc inf _ cs =>
    (inflateComps registry gc fuel).bind (fun gc2 =>
      (cloneChildrenLoop registry cs (root.getD i) fuel).map (fun ks =>
        Node.node i k g m rc gc2 inf none ks))

/-- Child loop of _cloneAndInflate (Editor.js lines 616-621): children
    already marked _inflated are skipped; every other child is cloned
    recursively, appended in order and tagged with the duplication root. -/
def cloneChildrenLoop (registry : List String) (cs : List Node) (rootId : Nat)
    (fuel : Nat) : Option (List Node) :=
  match cs with
  | [] => some []
  | c :: rest =>
    if c.inflated then cloneChildrenLoop registry rest rootId fuel
    else
      (cloneAndInflate registry c (some rootId) fuel).bind (fun kc =>
        (cloneChildrenLoop registry rest rootId fuel).map (fun ks =>
          setSelectionRoot kc rootId :: ks))

end

/-- Notifications dispatched through the editor's signal channels. -/
inductive Event where
  | objectAdded (id : Nat)
  | objectRemoved (id : Nat)
  | graphChanged
  | sceneSet
  | helperAdded (id : Nat)
  | helperRemoved (id : Nat)
  | objectSelected (id : Option Nat)
  | editorCleared
deriving DecidableEq, Repr

/-- Helper object stored in this.helpers; the owner is the node the
    visualization was built around (the helper's construction argument). -/
structure Helper where
  ownerId : Nat
deriving DecidableEq, Repr

/-- Reload side effects triggered by onFileChanged: a scene-reference
    reload for one dependent node, or a whole-scene reload. -/
inductive ReloadAction where
  | loadRef (url : String) (nodeId : Nat)
  | reloadScene
deriving DecidableEq, Repr

/-- Editor state: the component registry (type names registered by the
    constructor), the live scene root's copied identity fields, the root's
    children, the helper map, the Registry Store tables, the script table,
    the file-dependency tracker, the selection, the sceneGraphChanged
    channel's active flag, and the dispatched notification trace. -/
structure EditorState where
  registry : List String
  sceneUuid : String
  sceneName : String
  background : Option Nat
  fog : Option Nat
  sceneUserData : Nat
  sceneChildren : List Node
  helpers : List (Nat × Helper)
  geometries : List String
  materials : List String
  textures : List String
  scripts : List (String × List String)
  fileDependencies : List (String × List Node)
  selected : Option Nat
  graphChangedActive : Bool
  events : List Event
deriving Repr

/-- Source scene handed to setScene: identity fields plus children. -/
structure SourceScene where
  uuid : String
  name : String
  background : Option Nat
  fog : Option Nat
  userData : Nat
  children : List Node
deriving Repr

/-- Appends a dispatched notification to the trace. -/
def emitEvent (st : EditorState) (e : Event) : EditorState :=
  { st with events := st.events ++ [e] }

/-- Dispatch on the sceneGraphChanged channel: dropped while the channel
    is inactive (the setScene batching pattern). -/
def emitGraphChanged (st : EditorState) : EditorState :=
  if st.graphChangedActive then emitEvent st Event.graphChanged else st

/-- Editor.addGeometry (Editor.js lines 334-336): keyed assignment into
    this.geometries; an existing uuid keeps the key set unchanged. -/
def addGeometry (st : EditorState) (uuid : String) : EditorState :=
  if st.geometries.contains uuid then st
  else { st with geometries := st.geometries ++ [uuid] }

/-- Editor.addMaterial (Editor.js lines 343-345). -/
def addMaterial (st : EditorState) (uuid : String) : EditorState :=
  if st.materials.contains uuid then st
  else { st with materials := st.materials ++ [uuid] }

/-- Editor.addTexture (Editor.js lines 352-354). -/
def addTexture (st : EditorState) (uuid : String) : EditorState :=
  if st.textures.contains uuid then st
  else { st with textures := st.textures ++ [uuid] }

/-- Assignment this.helpers[k] = v: replaces the value of an existing key,
    otherwise appends the new key. -/
def helpersInsert (hs : List (Nat × Helper)) (k : Nat) (v : Helper) :
    List (Nat × Helper) :=
  if (List.lookup k hs).isSome then
    hs.map (fun p => if p.1 == k then (k, v) else p)
  else
    hs ++ [(k, v)]

/-- Deletion delete this.helpers[k]. -/
def helpersDelete (hs : List (Nat × Helper)) (k : Nat) : List (Nat × Helper) :=
  hs.filter (fun p => p.1 != k)

/-- Whether addHelper's instanceof chain builds a helper for this kind
    (Editor.js lines 380-395). -/
def helperEligible : NodeKind → Bool
  | NodeKind.camera => true
  | NodeKind.pointLight => true
  | NodeKind.directionalLight => true
  | NodeKind.spotLight => true
  | NodeKind.hemisphereLight => true
  | NodeKind.skinnedMesh => true
  | NodeKind.other => false

/-- Editor.addHelper (Editor.js lines 372-407): returns early when
    this.helpers[object.id] is already set; otherwise builds the kind's
    helper (with its picker proxy) and stores it under
    this.helpers[selectionRoot.id], dispatching helperAdded.  Note the
    guard reads the traversed object's id while the store writes the
    selection root's id. -/
def addHelper (st : EditorState) (object : Node) (selectionRoot : Node) : EditorState :=
  if (List.lookup object.id st.helpers).isSome then st
  else if helperEligible object.kind then
    emitEvent
      { st with helpers := helpersInsert st.helpers selectionRoot.id ⟨object.id⟩ }
      (Event.helperAdded object.id)
  else st

/-- Editor.removeHelper (Editor.js lines 409-418): removes the helper
    stored under this.helpers[object.id], if any, and dispatches
    helperRemoved. -/
def removeHelper (st : EditorState) (object : Node) : EditorState :=
  match List.lookup object.id st.helpers with
  | none => st
  | some h =>
    emitEvent { st with helpers := helpersDelete st.helpers object.id }
      (Event.helperRemoved h.ownerId)

/-- Node ids of the dependent set tracked for one url. -/
def depsIds (deps : List (String × List Node)) (s : String) : List Nat :=
  ((List.lookup s deps).getD []).map Node.id

/-- Set.prototype.delete on the dependent set stored for one url, with
    node identity represented by id. -/
def depsDelete (deps : List (String × List Node)) (s : String) (i : Nat) :
    List (String × List Node) :=
  deps.map (fun p => if p.1 == s then (p.1, p.2.filter (fun n => n.id != i)) else p)

/-- Editor.removeSceneRefDependency (Editor.js lines 245-255): looks up
    the node's scene-reference component through getComponent, reads its
    src property, and deletes the node from the dependent set tracked for
    that src.  In any constructed editor the scene-reference class is
    registered, so the lookup takes the registered branch; the remaining
    branches leave the state unchanged. -/
def removeSceneRefDependency (st : EditorState) (object : Node) : EditorState :=
  match getComponent st.registry object sceneReferenceName with
  | Except.ok (some (ComponentRef.registered c)) =>
    match List.lookup "src" c.props with
    | some s =>
      match List.lookup s st.fileDependencies with
      | some _ => { st with fileDependencies := depsDelete st.fileDependencies s object.id }
      | none => st
    | none => st
  | _ => st

/-- Per-node body of removeObject's traversal (Editor.js lines 323-326):
    destroy the helper, then release the scene-reference dependency. -/
def removeStep (st : EditorState) (child : Node) : EditorState :=
  removeSceneRefDependency (removeHelper st child) child

/-- The traversal object.traverse(...) inside removeObject, over the
    subtree in preorder. -/
def removeObjectTraverse (st : EditorState) (object : Node) : EditorState :=
  object.subtreeNodes.foldl removeStep st

/-- three.js removal of a child from a parent's children array, with node
    identity represented by id. -/
def eraseById : List Node → Nat → List Node
  | [], _ => []
  | c :: rest, i => if c.id == i then rest else c :: eraseById rest i

/-- Editor.removeObject (Editor.js lines 320-332).  The parent argument is
    the parent's children sequence, or none when object.parent is null, in
    which case the call returns immediately.  Otherwise the subtree is
    traversed (helpers destroyed, scene-reference dependencies released),
    the object is detached from the parent, and objectRemoved is
    dispatched followed by sceneGraphChanged. -/
def removeObject (st : EditorState) (object : Node) (parent : Option (List Node)) :
    EditorState × Option (List Node) :=
  match parent with
  | none => (st, none)
  | some l =>
    let st1 := removeObjectTraverse st object
    let l' := eraseById l object.id
    let st2 := emitEvent st1 (Event.objectRemoved object.id)
    let st3 := emitGraphChanged st2
    (st3, some l')

/-- Per-node body of addObject's traversal (Editor.js lines 280-285):
    register geometry and material, then addHelper with the added subtree's
    root as the selection root. -/
def addStep (object : Node) (st : EditorState) (child : Node) : EditorState :=
  let s1 := match child.geometryUuid with
            | some g => addGeometry st g
            | none => st
  let s2 := match child.materialUuid with
            | some m => addMaterial s1 m
            | none => s1
  addHelper s2 child object

/-- Editor.addObject (Editor.js lines 277-295).  The subtree is traversed
    in preorder, the object is attached to the given parent's children (or
    to the scene root when the parent is undefined), and objectAdded is
    dispatched followed by sceneGraphChanged. -/
def addObject (st : EditorState) (object : Node) (parent : Option (List Node)) :
    EditorState × Option (List Node) :=
  let st1 := object.subtreeNodes.foldl (addStep object) st
  let r : EditorState × Option (List Node) :=
    match parent with
    | some l => (st1, some (l ++ [object]))
    | none => ({ st1 with sceneChildren := st1.sceneChildren ++ [object] }, none)
  let st2 := emitEvent r.1 (Event.objectAdded object.id)
  let st3 := emitGraphChanged st2
  (st3, r.2)

/-- The while loop in setScene and clear that removes root children one at
    a time via removeObject(this.scene.children[0]).  The list argument
    recurses over the children being consumed; each step applies
    removeObject to the head with the root as parent and threads the
    returned children sequence (erasing the head of its own list leaves
    exactly the tail, so the recursion follows the loop). -/
def removeChildrenLoop : EditorState → List Node → EditorState
  | st, [] => st
  | st, c :: rest =>
    let r := removeObject st c (some st.sceneChildren)
    removeChildrenLoop { r.1 with sceneChildren := (r.2).getD [] } rest

/-- The while loop in setScene that appends the source's children via
    addObject(scene.children[0]); three.js add() steals each child from
    the source, which the recursion over the source list mirrors. -/
def addChildrenLoop : EditorState → List Node → EditorState
  | st, [] => st
  | st, c :: rest => addChildrenLoop (addObject st c none).1 rest

/-- Editor.setScene (Editor.js lines 170-194): copies identity,
    background, fog and userData from the source onto the live root,
    deactivates the sceneGraphChanged channel, removes all current root
    children, appends all source children, reactivates the channel, and
    dispatches sceneSet once. -/
def setScene (st : EditorState) (src : SourceScene) : EditorState :=
  let st1 := { st with
    sceneUuid := src.uuid
    sceneName := src.name
    background := match src.background with
                  | some b => some b
                  | none => st.background
    fog := match src.fog with
           | some f => some f
           | none => st.fog
    sceneUserData := src.userData
    graphChangedActive := false }
  let st2 := removeChildrenLoop st1 st1.sceneChildren
  let st3 := addChildrenLoop st2 src.children
  let st4 := { st3 with graphChangedActive := true }
  emitEvent st4 Event.sceneSet

/-- Editor.select (Editor.js lines 556-562). -/
def select (st : EditorState) (o : Option Nat) : EditorState :=
  if st.selected == o then st
  else emitEvent { st with selected := o } (Event.objectSelected o)

/-- Editor.deselect (Editor.js lines 588-590). -/
def deselect (st : EditorState) : EditorState :=
  select st none

/-- Editor.clear (Editor.js lines 634-656): resets history and storage
    (external collaborators), resets camera, background and fog, removes
    all root children through removeObject, empties the Registry Store
    tables and the script table, clears the selection and dispatches
    editorCleared.  The component registry and the file-dependency map are
    not reassigned. -/
def clear (st : EditorState) : EditorState :=
  let st1 := { st with background := some 0xaaaaaa, fog := none }
  let st2 := removeChildrenLoop st1 st1.sceneChildren
  let st3 := { st2 with geometries := [], materials := [], textures := [], scripts := [] }
  let st4 := deselect st3
  emitEvent st4 Event.editorCleared

/-- The loop body of onFileChanged over one dependent set: each dependent
    with a scene-reference component (of any src) gets
    loadSceneReference(url, dependency); every other dependent triggers
    reloadScene.  A getComponent failure propagates as the thrown error. -/
def reloadActionsFor (registry : List String) (url : String) :
    List Node → Except String (List ReloadAction)
  | [] => Except.ok []
  | n :: rest =>
    match getComponent registry n sceneReferenceName with
    | Except.error e => Except.error e
    | Except.ok c =>
      match reloadActionsFor registry url rest with
      | Except.error e => Except.error e
      | Except.ok acts =>
        Except.ok ((if c.isSome then ReloadAction.loadRef url n.id
                    else ReloadAction.reloadScene) :: acts)

/-- Editor.onFileChanged (Editor.js lines 134-146): looks up the changed
    url in the file-dependency tracker; a missing entry means no
    dependents and nothing happens; otherwise each dependent is dispatched
    per reloadActionsFor.  The asynchronous loads are modelled as the list
    of triggered actions. -/
def onFileChanged (st : EditorState) (url : String) : Except String (List ReloadAction) :=
  match List.lookup url st.fileDependencies with
  | none => Except.ok []
  | some ns => reloadActionsFor st.registry url ns

/-- Modelled from the spec: a component class's deflate removes that
    class's instance from the node. -/
def deflate (object : Node) (componentName : String) : Node :=
  match object with
  | Node.node i k g m rc gc inf sr cs =>
    Node.node i k g m (rc.eraseP (fun c => c.className == componentName)) gc inf sr cs

/-- Replaces the node's generic component list. -/
def Node.withGenComps : Node → Option (List GenComp) → Node
  | Node.node i k g m rc _ inf sr cs, gc => Node.node i k g m rc gc inf sr cs

/-- Editor.removeComponent (Editor.js lines 483-498).  A registered type
    name delegates to the class's deflate, first releasing the
    dependency-tracker entry for the scene-reference type; an unregistered
    name returns untouched when the generic list was never created, and
    otherwise splices one entry at findIndex's result -- which is -1 when
    no entry matches, so splice removes the last entry. -/
def removeComponent (st : EditorState) (object : Node) (componentName : String) :
    EditorState × Node :=
  if st.registry.contains componentName then
    let st' := if componentName == sceneReferenceName
               then removeSceneRefDependency st object
               else st
    (st', deflate object componentName)
  else
    match object.genComps with
    | none => (st, object)
    | some l =>
      (st, object.withGenComps (some (spliceOne l (findIndexByName l componentName))))

/-- Minimal editor state with the scene-reference class registered, as the
    constructor's registration loop guarantees. -/
def emptyState : EditorState :=
  { registry := [sceneReferenceName]
    sceneUuid := ""
    sceneName := "Scene"
    background := some 0xaaaaaa
    fog := none
    sceneUserData := 0
    sceneChildren := []
    helpers := []
    geometries := []
    materials := []
    textures := []
    scripts := []
    fileDependencies := []
    selected := none
    graphChangedActive := true
    events := [] }

/-- First generic component of the duplication source. -/
def compA : GenComp := ⟨"a", 0, true⟩

/-- Second generic component of the duplication source. -/
def compB : GenComp := ⟨"b", 1, true⟩

/-- Duplication source carrying exactly two generic components. -/
def nodeZ : Node := Node.node 7 NodeKind.other none none [] (some [compA, compB]) false none []

/-- Scene-reference component instance whose src is "V". -/
def sceneRefV : RegComp := ⟨sceneReferenceName, [("src", "V")]⟩

/-- Dependent node carrying a scene-reference component with src "V". -/
def nodeV : Node := Node.node 1 NodeKind.other none none [sceneRefV] none false none []

/-- Tracker state in which nodeV is recorded as a dependent of "U" while
    its scene-reference src is "V"; reachable by adding the component with
    src "U" and then updating the src property to "V" (the update releases
    the entry under the new value, leaving the entry under "U" behind). -/
def stC2 : EditorState := { emptyState with fileDependencies := [("U", [nodeV])] }

/-- Helper-eligible first child (a camera). -/
def camC1 : Node := Node.node 1 NodeKind.camera none none [] none false none []

/-- Helper-eligible second child (a point light). -/
def lightC2 : Node := Node.node 2 NodeKind.pointLight none none [] none false none []

/-- Subtree root with two helper-eligible descendants. -/
def rootR : Node := Node.node 0 NodeKind.other none none [] none false none [camC1, lightC2]

/-- Mesh node carrying one fresh geometry and one fresh material. -/
def meshM : Node := Node.node 3 NodeKind.other (some "g") (some "m") [] none false none []

/-- Single generic component named "A". -/
def compX : GenComp := ⟨"A", 0, true⟩

/-- Node whose generic list holds only the component named "A". -/
def nodeX3 : Node := Node.node 4 NodeKind.other none none [] (some [compX]) false none []

/-- The component re-attachment loop never returns once it runs on a
    non-empty list of unregistered components: every step pushes one more
    record onto the array it is iterating, so the index never reaches the
    length. -/
theorem inflateLoop_unregistered_diverges (registry : List String) :
    ∀ (fuel : Nat) (comps : List GenComp) (i : Nat), i < comps.length →
      (∀ c ∈ comps, registry.contains c.name = false) →
      inflateComponentsLoop registry fuel comps i = none := by
  intro fuel
  induction fuel with
  | zero => intro comps i _ _; rfl
  | succ fuel ih =>
    intro comps i hi hall
    have hc : registry.contains (comps.get ⟨i, hi⟩).name = false :=
      hall _ (comps.get_mem i hi)
    rw [inflateComponentsLoop]
    rw [dif_pos hi]
    simp only [hc, Bool.false_eq_true, if_false]
    refine ih _ _ ?_ ?_
    · simp only [List.length_append, List.length_cons, List.length_nil]
      omega
    · intro c hcm
      rcases List.mem_append.mp hcm with h | h
      · exact hall c h
      · simp only [List.mem_singleton] at h
        subst h
        exact hc

/-- C1: duplicateObject on a node carrying two generic (unregistered)
    components does NOT terminate.  _cloneAndInflate's for...of loop walks
    clone.userData._components while addComponent's unregistered branch
    pushes onto that same array, so for nodeZ (two generic components
    named "a" and "b") the clone is never produced, whatever fuel the
    embedding grants the loop; the claimed two-component clone with
    fresh props never materializes. -/
theorem c1_duplicateObject_diverges :
    ∀ fuel : Nat, cloneAndInflate [sceneReferenceName] nodeZ none fuel = none := by
  intro fuel
  have h := inflateLoop_unregistered_diverges [sceneReferenceName] fuel [compA, compB] 0
    (by decide) (by decide)
  rw [cloneAndInflate.eq_def]
  simp [nodeZ, inflateComps, h]

/-- C3: removeComponent for an unregistered type name that the node's
    generic list does not contain removes the LAST entry instead of
    leaving the list unchanged: findIndex returns -1 and splice(-1, 1)
    deletes the final element.  Here the node holds only the component
    named "A", yet removing the absent "B" empties the list. -/
theorem c3_removeComponent_missing_drops_last :
    ((removeComponent emptyState nodeX3 "B").2).genComps = some [] ∧
    nodeX3.genComps = some [compX] := by decide

/-- Looking up a key that a map does not yet contain finds the entry
    appended for it. -/
theorem lookup_append_self {α β : Type} [BEq α] [LawfulBEq α] (m : List (α × β)) (k : α)
    (v : β) (h : List.lookup k m = none) : List.lookup k (m ++ [(k, v)]) = some v := by
  induction m with
  | nil => simp [List.lookup]
  | cons p rest ih =>
    by_cases hk : k == p.1
    · simp [List.lookup, hk] at h
    · simp only [List.cons_append, List.lookup, hk] at h ⊢
      exact ih h

/-- C7: registering a component class whose type name is already present
    throws and leaves the registry unmodified, so the first registration
    stays active; a fresh type name is appended without error and becomes
    the registered class for that name. -/
theorem c7_registerComponent_duplicate_rejected (m : List (String × CompClass)) (c : CompClass) :
    ((List.lookup c.componentName m).isSome = true →
      registerComponent m c = (m, some (c.componentName ++ " already registered"))) ∧
    ((List.lookup c.componentName m).isSome = false →
      registerComponent m c = (m ++ [(c.componentName, c)], none) ∧
      List.lookup c.componentName (m ++ [(c.componentName, c)]) = some c) := by
  constructor
  · intro h
    simp [registerComponent, h]
  · intro h
    constructor
    · simp [registerComponent, h]
    · exact lookup_append_self m c.componentName c (Option.not_isSome_iff_eq_none.mp (by simp [h]))

/-- Witness for C7: a duplicate "x" registration is rejected with the
    registry untouched, and a fresh "y" registration succeeds. -/
theorem c7_registerComponent_witness :
    registerComponent [("x", ⟨"x", 0⟩)] ⟨"x", 1⟩
      = ([("x", ⟨"x", 0⟩)], some "x already registered") ∧
    registerComponent [] ⟨"y", 0⟩ = ([("y", ⟨"y", 0⟩)], none) := by
  constructor
  · exact (c7_registerComponent_duplicate_rejected [("x", ⟨"x", 0⟩)] ⟨"x", 1⟩).1 (by decide)
  · exact ((c7_registerComponent_duplicate_rejected [] ⟨"y", 0⟩).2 (by decide)).1

/-- C9: the generic-path read of getComponent assumes the node's metadata
    component list exists; for a node on which no generic component was
    ever added and an unregistered type name, the read fails (the
    embedding's error branch) instead of returning absent. -/
theorem c9_getComponent_missing_list_fails (registry : List String) (object : Node) (t : String)
    (hreg : registry.contains t = false) (hnone : object.genComps = none) :
    getComponent registry object t =
      Except.error "TypeError: object.userData._components is undefined" := by
  unfold getComponent
  rw [hreg]
  simp [hnone]

/-- Witness for C9: reading an unregistered type from a mesh node without
    a component list errors. -/
theorem c9_getComponent_witness :
    getComponent [] meshM "foo" =
      Except.error "TypeError: object.userData._components is undefined" :=
  c9_getComponent_missing_list_fails [] meshM "foo" (by decide) rfl

/-- Counterexample for C2: nodeV sits in the dependent set tracked for
    "U" while its scene-reference component's src is "V".  The claim says
    a notification for "U" performs a full scene reload for such a
    dependent (reference-reload exactly when src equals "U"); the code
    checks only component presence and issues
    loadSceneReference("U", nodeV) instead. -/
theorem c2_src_mismatch_counterexample :
    onFileChanged stC2 "U" = Except.ok [ReloadAction.loadRef "U" 1] ∧
    (nodeV.regComps.find? (fun c => c.className == sceneReferenceName)).map
        (fun c => List.lookup "src" c.props) = some (some "V") ∧
    ("V" : String) ≠ "U" := by
  refine ⟨rfl, rfl, by decide⟩

/-- With the scene-reference class registered, the onFileChanged loop body
    maps each dependent to a reference reload when it carries a
    scene-reference component, and to a whole-scene reload otherwise. -/
theorem reloadActionsFor_characterization (registry : List String) (url : String)
    (hreg : registry.contains sceneReferenceName = true) :
    ∀ ns, reloadActionsFor registry url ns = Except.ok (ns.map (fun n =>
      if (n.regComps.find? (fun c => c.className == sceneReferenceName)).isSome
      then ReloadAction.loadRef url n.id
      else ReloadAction.reloadScene)) := by
  intro ns
  induction ns with
  | nil => rfl
  | cons n rest ih =>
    simp only [reloadActionsFor, getComponent, hreg, if_true, ih, List.map_cons]
    cases h : n.regComps.find? (fun c => c.className == sceneReferenceName) <;> simp [h]

/-- C2 as amended: a notification for an untracked id triggers nothing and
    no error, and a notification for a tracked id triggers, per dependent,
    a reference-reload exactly when the dependent currently carries a
    scene-reference component -- regardless of that component's src value
    -- and a full scene reload otherwise. -/
theorem c2_reload_dispatch_amended (st : EditorState) (url : String)
    (hreg : st.registry.contains sceneReferenceName = true) :
    (List.lookup url st.fileDependencies = none → onFileChanged st url = Except.ok []) ∧
    (∀ ns, List.lookup url st.fileDependencies = some ns →
      onFileChanged st url = Except.ok (ns.map (fun n =>
        if (n.regComps.find? (fun c => c.className == sceneReferenceName)).isSome
        then ReloadAction.loadRef url n.id
        else ReloadAction.reloadScene))) := by
  constructor
  · intro h; simp [onFileChanged, h]
  · intro ns h
    simp [onFileChanged, h, reloadActionsFor_characterization st.registry url hreg ns]

/-- Witness for C2: the amended dispatch applied to the tracked state
    stC2. -/
theorem c2_reload_dispatch_witness :
    onFileChanged stC2 "U" = Except.ok [ReloadAction.loadRef "U" 1] := by
  rw [(c2_reload_dispatch_amended stC2 "U" (by decide)).2 [nodeV] (by rfl)]
  rfl

/-- Deleting a helper key preserves the absence of any key. -/
theorem lookup_filtered_none {hs : List (Nat × Helper)} {k k' : Nat}
    (h : List.lookup k hs = none) :
    List.lookup k (helpersDelete hs k') = none := by
  induction hs with
  | nil => rfl
  | cons p rest ih =>
    simp only [List.lookup] at h
    cases hk : k == p.1 with
    | true => simp [hk] at h
    | false =>
      simp only [hk] at h
      simp only [helpersDelete, List.filter_cons]
      cases hp : p.1 != k' with
      | true =>
        simp only [if_pos rfl, List.lookup, hk]
        exact ih h
      | false =>
        simp only [Bool.false_eq_true, if_false]
        exact ih h

/-- Deleting a helper key removes it. -/
theorem lookup_helpersDelete_self (hs : List (Nat × Helper)) (k : Nat) :
    List.lookup k (helpersDelete hs k) = none := by
  induction hs with
  | nil => rfl
  | cons p rest ih =>
    simp only [helpersDelete, List.filter_cons]
    cases hp : p.1 != k with
    | true =>
      have hk : (k == p.1) = false := by
        rw [bne_iff_ne] at hp
        rw [beq_eq_false_iff_ne]
        exact fun e => hp e.symm
      simp only [if_pos rfl, List.lookup, hk]
      simpa [helpersDelete] using ih
    | false =>
      simp only [Bool.false_eq_true, if_false]
      simpa [helpersDelete] using ih

/-- Replacing the value of a present key makes lookup return the new
    value. -/
theorem lookup_map_replace (hs : List (Nat × Helper)) (k : Nat) (v : Helper)
    (h : (List.lookup k hs).isSome = true) :
    List.lookup k (hs.map (fun p => if p.1 == k then (k, v) else p)) = some v := by
  induction hs with
  | nil => simp [List.lookup] at h
  | cons p rest ih =>
    simp only [List.map_cons]
    cases hp : p.1 == k with
    | true =>
      simp only [hp, if_pos rfl]
      simp [List.lookup]
    | false =>
      simp only [hp, Bool.false_eq_true, if_false]
      have hk : (k == p.1) = false := by
        rw [beq_eq_false_iff_ne] at hp ⊢
        exact fun e => hp e.symm
      simp only [List.lookup, hk] at h ⊢
      exact ih h

/-- Assignment into the helper map makes lookup return the assigned
    helper. -/
theorem lookup_helpersInsert_self (hs : List (Nat × Helper)) (k : Nat) (v : Helper) :
    List.lookup k (helpersInsert hs k v) = some v := by
  unfold helpersInsert
  by_cases h : (List.lookup k hs).isSome = true
  · rw [if_pos h]
    exact lookup_map_replace hs k v h
  · rw [if_neg h]
    rw [Bool.not_eq_true] at h
    exact lookup_append_self hs k v (by
      cases hl : List.lookup k hs
      · rfl
      · rw [hl] at h
        simp at h)

/-- Set deletion within the dependency map only rewrites the set stored
    for the deleted id's key. -/
theorem lookup_depsDelete (deps : List (String × List Node)) (s t : String) (i : Nat) :
    List.lookup t (depsDelete deps s i) =
      if t == s then (List.lookup t deps).map (fun ns => ns.filter (fun n => n.id != i))
      else List.lookup t deps := by
  induction deps with
  | nil =>
    simp only [depsDelete, List.map_nil, List.lookup]
    cases t == s <;> simp
  | cons p rest ih =>
    simp only [depsDelete, List.map_cons] at ih ⊢
    cases h1 : p.1 == s with
    | true =>
      simp only [if_pos rfl]
      cases h2 : t == p.1 with
      | true =>
        have hts : (t == s) = true := by
          rw [beq_iff_eq] at h1 h2 ⊢
          rw [h2, h1]
        simp [List.lookup, h2, hts]
      | false =>
        simp only [List.lookup, h2, ih]
    | false =>
      simp only [Bool.false_eq_true, if_false]
      cases h2 : t == p.1 with
      | true =>
        have hts : (t == s) = false := by
          rw [beq_iff_eq] at h2
          rw [beq_eq_false_iff_ne] at h1 ⊢
          rw [h2]
          exact h1
        simp only [List.lookup, h2, hts, Bool.false_eq_true, if_false]
      | false =>
        simp only [List.lookup, h2, ih]

/-- After deleting a node from the set tracked for an id, the node is no
    longer a dependent of that id. -/
theorem depsIds_delete_self (deps : List (String × List Node)) (s : String) (i : Nat) :
    i ∉ depsIds (depsDelete deps s i) s := by
  unfold depsIds
  rw [lookup_depsDelete, if_pos (beq_self_eq_true s)]
  intro hmem
  rcases List.mem_map.mp hmem with ⟨n, hn, hid⟩
  cases hl : List.lookup s deps with
  | none =>
    rw [hl] at hn
    simp at hn
  | some val =>
    rw [hl] at hn
    have hn2 : n ∈ List.filter (fun n => n.id != i) val := by
      simpa using hn
    have hne := List.of_mem_filter hn2
    rw [hid] at hne
    simp at hne

/-- Deletion never grows any tracked dependent set. -/
theorem depsIds_delete_sub (deps : List (String × List Node)) (s : String) (i : Nat)
    (t : String) : depsIds (depsDelete deps s i) t ⊆ depsIds deps t := by
  unfold depsIds
  rw [lookup_depsDelete]
  by_cases h : (t == s) = true
  · rw [if_pos h]
    intro x hx
    rcases List.mem_map.mp hx with ⟨n, hn, hid⟩
    cases hl : List.lookup t deps with
    | none =>
      rw [hl] at hn
      simp at hn
    | some val =>
      rw [hl] at hn
      have hn2 : n ∈ List.filter (fun n => n.id != i) val := by
        simpa using hn
      have hn3 : n ∈ val := (List.filter_sublist _).subset hn2
      exact List.mem_map.mpr ⟨n, by simpa using hn3, hid⟩
  · rw [if_neg h]
    exact fun x hx => hx

/-- Effect of removeHelper: only the helper map (entry for the object's
    id deleted) and the trace (helperRemoved only) change. -/
theorem removeHelper_shape (st : EditorState) (c : Node) :
    ∃ hs tr, removeHelper st c = { st with helpers := hs, events := st.events ++ tr } ∧
      (∀ e ∈ tr, ∃ i, e = Event.helperRemoved i) ∧
      List.lookup c.id hs = none ∧
      (∀ k, List.lookup k st.helpers = none → List.lookup k hs = none) := by
  unfold removeHelper
  cases hl : List.lookup c.id st.helpers with
  | none =>
    exact ⟨st.helpers, [], by simp, by simp, hl, fun k hk => hk⟩
  | some h =>
    exact ⟨helpersDelete st.helpers c.id, [Event.helperRemoved h.ownerId], rfl, by simp,
      lookup_helpersDelete_self _ _, fun k hk => lookup_filtered_none hk⟩

/-- Effect of removeSceneRefDependency: only the dependency map changes,
    and each tracked set can only shrink. -/
theorem removeSceneRef_shape (st : EditorState) (c : Node) :
    ∃ d, removeSceneRefDependency st c = { st with fileDependencies := d } ∧
      (∀ s, depsIds d s ⊆ depsIds st.fileDependencies s) := by
  unfold removeSceneRefDependency
  repeat' split
  all_goals first
    | exact ⟨st.fileDependencies, rfl, fun _ x hx => hx⟩
    | exact ⟨depsDelete st.fileDependencies _ c.id, rfl, fun _ => depsIds_delete_sub _ _ _ _⟩

/-- With the scene-reference class registered, releasing the dependency
    of a node carrying the component removes the node from the set tracked
    for its src. -/
theorem removeSceneRef_removed (st : EditorState) (c : Node) (rc : RegComp) (s : String)
    (hreg : st.registry.contains sceneReferenceName = true)
    (hfind : c.regComps.find? (fun x => x.className == sceneReferenceName) = some rc)
    (hsrc : List.lookup "src" rc.props = some s) :
    c.id ∉ depsIds (removeSceneRefDependency st c).fileDependencies s := by
  have hg : getComponent st.registry c sceneReferenceName
      = Except.ok (some (ComponentRef.registered rc)) := by
    unfold getComponent
    rw [hreg]
    simp [hfind]
  simp only [removeSceneRefDependency, hg, hsrc]
  cases hl : List.lookup s st.fileDependencies with
  | none =>
    simp only [hl]
    unfold depsIds
    rw [hl]
    simp
  | some v =>
    simp only [hl]
    exact depsIds_delete_self _ _ _

/-- With the scene-reference class registered, a node without the
    component releases nothing. -/
theorem removeSceneRef_nocomp (st : EditorState) (c : Node)
    (hreg : st.registry.contains sceneReferenceName = true)
    (hfind : c.regComps.find? (fun x => x.className == sceneReferenceName) = none) :
    removeSceneRefDependency st c = st := by
  have hg : getComponent st.registry c sceneReferenceName = Except.ok none := by
    unfold getComponent
    rw [hreg]
    simp [hfind]
  simp only [removeSceneRefDependency, hg]

/-- One step of removeObject's traversal: helper entry for the node
    deleted, dependency sets only shrink, trace extended by helperRemoved
    events, everything else untouched. -/
theorem removeStep_shape (st : EditorState) (c : Node) :
    ∃ hs d tr, removeStep st c
        = { st with helpers := hs, fileDependencies := d, events := st.events ++ tr } ∧
      (∀ e ∈ tr, ∃ i, e = Event.helperRemoved i) ∧
      List.lookup c.id hs = none ∧
      (∀ k, List.lookup k st.helpers = none → List.lookup k hs = none) ∧
      (∀ s, depsIds d s ⊆ depsIds st.fileDependencies s) := by
  obtain ⟨hs, tr, heq, hp, hself, hmono⟩ := removeHelper_shape st c
  obtain ⟨d, heq2, hsub⟩ := removeSceneRef_shape (removeHelper st c) c
  refine ⟨hs, d, tr, ?_, hp, hself, hmono, ?_⟩
  · unfold removeStep
    rw [heq2, heq]
  · intro s
    have hfd : (removeHelper st c).fileDependencies = st.fileDependencies := by rw [heq]
    rw [hfd] at hsub
    exact hsub s

/-- One traversal step removes the node from the set tracked for its
    scene-reference src. -/
theorem removeStep_deps_removed (st : EditorState) (c : Node) (rc : RegComp) (s : String)
    (hreg : st.registry.contains sceneReferenceName = true)
    (hfind : c.regComps.find? (fun x => x.className == sceneReferenceName) = some rc)
    (hsrc : List.lookup "src" rc.props = some s) :
    c.id ∉ depsIds (removeStep st c).fileDependencies s := by
  obtain ⟨hs, tr, heq, _, _, _⟩ := removeHelper_shape st c
  have hreg2 : (removeHelper st c).registry.contains sceneReferenceName = true := by
    rw [heq]
    exact hreg
  unfold removeStep
  exact removeSceneRef_removed (removeHelper st c) c rc s hreg2 hfind hsrc

/-- A traversal step over a node without a scene-reference component
    leaves the dependency map unchanged. -/
theorem removeStep_deps_eq (st : EditorState) (c : Node)
    (hreg : st.registry.contains sceneReferenceName = true)
    (hfind : c.regComps.find? (fun x => x.className == sceneReferenceName) = none) :
    (removeStep st c).fileDependencies = st.fileDependencies := by
  obtain ⟨hs, tr, heq, _, _, _⟩ := removeHelper_shape st c
  have hreg2 : (removeHelper st c).registry.contains sceneReferenceName = true := by
    rw [heq]
    exact hreg
  unfold removeStep
  rw [removeSceneRef_nocomp _ _ hreg2 hfind, heq]

/-- Folding removeObject's per-node cleanup over a traversal list:
    helper entries of all listed nodes are gone, dependency sets only
    shrink, every listed node is dropped from the set tracked for its
    scene-reference src, and only helpers, dependencies and the trace
    change. -/
theorem removeFold_shape : ∀ (l : List Node) (st : EditorState),
    ∃ hs d tr, l.foldl removeStep st
        = { st with helpers := hs, fileDependencies := d, events := st.events ++ tr } ∧
      (∀ e ∈ tr, ∃ i, e = Event.helperRemoved i) ∧
      (∀ k, List.lookup k st.helpers = none → List.lookup k hs = none) ∧
      (∀ dn ∈ l, List.lookup dn.id hs = none) ∧
      (∀ s, depsIds d s ⊆ depsIds st.fileDependencies s) ∧
      (st.registry.contains sceneReferenceName = true →
        ∀ dn ∈ l, ∀ rc, dn.regComps.find? (fun x => x.className == sceneReferenceName) = some rc →
          ∀ s, List.lookup "src" rc.props = some s → dn.id ∉ depsIds d s) := by
  intro l
  induction l with
  | nil =>
    intro st
    exact ⟨st.helpers, st.fileDependencies, [], by simp, by simp, fun k h => h, by simp,
      fun s x hx => hx, by simp⟩
  | cons c rest ih =>
    intro st
    obtain ⟨hs1, d1, t1, heq1, hp1, hself1, hmono1, hsub1⟩ := removeStep_shape st c
    obtain ⟨hs2, d2, t2, heq2, hp2, hmono2, hofl2, hsub2, hrem2⟩ := ih (removeStep st c)
    rw [heq1] at heq2 hmono2 hsub2 hrem2
    refine ⟨hs2, d2, t1 ++ t2, ?_, ?_, ?_, ?_, ?_, ?_⟩
    · rw [List.foldl_cons, heq1, heq2, ← List.append_assoc]
    · intro e he
      rcases List.mem_append.mp he with h | h
      · exact hp1 e h
      · exact hp2 e h
    · exact fun k hk => hmono2 k (hmono1 k hk)
    · intro dn hdn
      rcases List.mem_cons.mp hdn with h | h
      · rw [h]
        exact hmono2 c.id hself1
      · exact hofl2 dn h
    · exact fun s => fun x hx => hsub1 s (hsub2 s hx)
    · intro hreg dn hdn rc hfind s hsrc
      rcases List.mem_cons.mp hdn with h | h
      · rw [h]
        intro hmem
        have hd1 := hsub2 s hmem
        have hrm := removeStep_deps_removed st c rc s hreg (by rw [h] at hfind; exact hfind) hsrc
        rw [heq1] at hrm
        exact hrm hd1
      · exact hrem2 hreg dn h rc hfind s hsrc

/-- Dispatching a notification changes only the trace. -/
theorem emitEvent_proj (st : EditorState) (e : Event) :
    (emitEvent st e).registry = st.registry ∧ (emitEvent st e).helpers = st.helpers ∧
    (emitEvent st e).geometries = st.geometries ∧ (emitEvent st e).materials = st.materials ∧
    (emitEvent st e).textures = st.textures ∧ (emitEvent st e).scripts = st.scripts ∧
    (emitEvent st e).fileDependencies = st.fileDependencies ∧
    (emitEvent st e).sceneChildren = st.sceneChildren ∧
    (emitEvent st e).graphChangedActive = st.graphChangedActive ∧
    (emitEvent st e).selected = st.selected := by
  exact ⟨rfl, rfl, rfl, rfl, rfl, rfl, rfl, rfl, rfl, rfl⟩

/-- emitGraphChanged appends exactly the events its active flag allows. -/
theorem emitGraphChanged_shape (st : EditorState) :
    emitGraphChanged st
      = { st with events := st.events ++ (if st.graphChangedActive then [Event.graphChanged] else []) } := by
  unfold emitGraphChanged emitEvent
  by_cases h : st.graphChangedActive
  · rw [if_pos h, if_pos h]
  · rw [if_neg h, if_neg h]
    simp

/-- A graphChanged dispatch changes only the trace. -/
theorem emitGraphChanged_proj (st : EditorState) :
    (emitGraphChanged st).registry = st.registry ∧ (emitGraphChanged st).helpers = st.helpers ∧
    (emitGraphChanged st).geometries = st.geometries ∧
    (emitGraphChanged st).materials = st.materials ∧
    (emitGraphChanged st).textures = st.textures ∧ (emitGraphChanged st).scripts = st.scripts ∧
    (emitGraphChanged st).fileDependencies = st.fileDependencies ∧
    (emitGraphChanged st).sceneChildren = st.sceneChildren ∧
    (emitGraphChanged st).graphChangedActive = st.graphChangedActive ∧
    (emitGraphChanged st).selected = st.selected := by
  unfold emitGraphChanged emitEvent
  split <;> exact ⟨rfl, rfl, rfl, rfl, rfl, rfl, rfl, rfl, rfl, rfl⟩

/-- Full effect of removeObject with a parent: traversal cleanup plus the
    two notifications, packaged with the traversal's properties. -/
theorem removeObject_some_shape (st : EditorState) (object : Node) (l : List Node)
    (hact : st.graphChangedActive = true) :
    ∃ hs d tr, removeObject st object (some l)
        = ({ st with
              helpers := hs
              fileDependencies := d
              events := (st.events ++ tr) ++ [Event.objectRemoved object.id, Event.graphChanged] },
           some (eraseById l object.id)) ∧
      (∀ e ∈ tr, ∃ i, e = Event.helperRemoved i) ∧
      (∀ k, List.lookup k st.helpers = none → List.lookup k hs = none) ∧
      (∀ dn ∈ object.subtreeNodes, List.lookup dn.id hs = none) ∧
      (∀ s, depsIds d s ⊆ depsIds st.fileDependencies s) ∧
      (st.registry.contains sceneReferenceName = true →
        ∀ dn ∈ object.subtreeNodes, ∀ rc,
          dn.regComps.find? (fun x => x.className == sceneReferenceName) = some rc →
          ∀ s, List.lookup "src" rc.props = some s → dn.id ∉ depsIds d s) := by
  obtain ⟨hs, d, tr, heq, hp, hmono, hofl, hsub, hrem⟩ := removeFold_shape object.subtreeNodes st
  refine ⟨hs, d, tr, ?_, hp, hmono, hofl, hsub, hrem⟩
  show (emitGraphChanged (emitEvent (removeObjectTraverse st object) (Event.objectRemoved object.id)),
        some (eraseById l object.id)) = _
  unfold removeObjectTraverse
  rw [heq]
  rw [emitGraphChanged_shape]
  simp [emitEvent, hact, List.append_assoc]

/-- removeObject leaves the geometry and material tables untouched. -/
theorem removeObject_registry_store (st : EditorState) (object : Node) (q : Option (List Node)) :
    ((removeObject st object q).1).geometries = st.geometries ∧
    ((removeObject st object q).1).materials = st.materials := by
  cases q with
  | none => exact ⟨rfl, rfl⟩
  | some l =>
    obtain ⟨hs, d, tr, heq, _, _, _, _, _⟩ := removeFold_shape object.subtreeNodes st
    constructor
    · show (emitGraphChanged (emitEvent (removeObjectTraverse st object)
        (Event.objectRemoved object.id))).geometries = st.geometries
      rw [(emitGraphChanged_proj _).2.2.1]
      show (removeObjectTraverse st object).geometries = st.geometries
      unfold removeObjectTraverse
      rw [heq]
    · show (emitGraphChanged (emitEvent (removeObjectTraverse st object)
        (Event.objectRemoved object.id))).materials = st.materials
      rw [(emitGraphChanged_proj _).2.2.2.1]
      show (removeObjectTraverse st object).materials = st.materials
      unfold removeObjectTraverse
      rw [heq]

/-- C8: removeObject on a node with a null parent is a guarded no-op that
    raises no error and changes no editor state; on a node with a parent it
    destroys the helper map entry of every descendant, releases every
    descendant's scene-reference dependency, detaches the subtree from the
    parent's children, and emits objectRemoved followed by graphChanged. -/
theorem c8_removeObject_guard_and_cleanup (st : EditorState) (object : Node) (l : List Node)
    (hreg : st.registry.contains sceneReferenceName = true)
    (hact : st.graphChangedActive = true) :
    removeObject st object none = (st, none) ∧
    (∀ dn ∈ object.subtreeNodes,
      List.lookup dn.id ((removeObject st object (some l)).1).helpers = none) ∧
    (∀ dn ∈ object.subtreeNodes, ∀ rc,
      dn.regComps.find? (fun x => x.className == sceneReferenceName) = some rc →
      ∀ s, List.lookup "src" rc.props = some s →
      dn.id ∉ depsIds ((removeObject st object (some l)).1).fileDependencies s) ∧
    (removeObject st object (some l)).2 = some (eraseById l object.id) ∧
    (∃ tr, ((removeObject st object (some l)).1).events
        = st.events ++ tr ++ [Event.objectRemoved object.id, Event.graphChanged]) := by
  obtain ⟨hs, d, tr, heq, hp, hmono, hofl, hsub, hrem⟩ := removeObject_some_shape st object l hact
  refine ⟨rfl, ?_, ?_, ?_, ⟨tr, ?_⟩⟩
  · intro dn hdn
    rw [heq]
    exact hofl dn hdn
  · intro dn hdn rc hfind s hsrc
    rw [heq]
    exact hrem hreg dn hdn rc hfind s hsrc
  · rw [heq]
  · rw [heq]

/-- Witness for C8 at a concrete state: removing nodeV (which carries a
    scene-reference on "V" and a helper entry) clears its helper entry and
    its dependency, empties the parent's children, while the null-parent
    call leaves the state untouched. -/
theorem c8_removeObject_witness :
    List.lookup nodeV.id ((removeObject
        { emptyState with fileDependencies := [("V", [nodeV])], helpers := [(1, ⟨1⟩)] }
        nodeV (some [nodeV])).1).helpers = none ∧
    nodeV.id ∉ depsIds ((removeObject
        { emptyState with fileDependencies := [("V", [nodeV])], helpers := [(1, ⟨1⟩)] }
        nodeV (some [nodeV])).1).fileDependencies "V" ∧
    (removeObject { emptyState with fileDependencies := [("V", [nodeV])], helpers := [(1, ⟨1⟩)] }
        nodeV (some [nodeV])).2 = some [] ∧
    removeObject { emptyState with fileDependencies := [("V", [nodeV])], helpers := [(1, ⟨1⟩)] }
        nodeV none
      = ({ emptyState with fileDependencies := [("V", [nodeV])], helpers := [(1, ⟨1⟩)] }, none) := by
  obtain ⟨h0, h1, h2, h3, _⟩ := c8_removeObject_guard_and_cleanup
    { emptyState with fileDependencies := [("V", [nodeV])], helpers := [(1, ⟨1⟩)] }
    nodeV [nodeV] (by decide) (by decide)
  have hmem : nodeV ∈ nodeV.subtreeNodes := by
    simp [Node.subtreeNodes, subtreeNodesList, nodeV]
  refine ⟨h1 nodeV hmem, h2 nodeV hmem sceneRefV rfl "V" rfl, ?_, h0⟩
  rw [h3]
  rfl

/-- C4 as amended: addHelper returns without effect when the TRAVERSED
    OBJECT's id already has a helper entry (also when the object's kind is
    not helper-eligible), but an eligible object whose own id is fresh
    stores its helper under the SELECTION ROOT's id, replacing any helper
    already recorded for that root; the guard key and the store key
    differ, so the map is not one-per-selection-root under re-adding. -/
theorem c4_addHelper_guard_store_mismatch (st : EditorState) (object selectionRoot : Node) :
    ((List.lookup object.id st.helpers).isSome = true →
      addHelper st object selectionRoot = st) ∧
    ((List.lookup object.id st.helpers).isSome = false → helperEligible object.kind = false →
      addHelper st object selectionRoot = st) ∧
    ((List.lookup object.id st.helpers).isSome = false → helperEligible object.kind = true →
      (addHelper st object selectionRoot).helpers
          = helpersInsert st.helpers selectionRoot.id ⟨object.id⟩ ∧
      List.lookup selectionRoot.id (addHelper st object selectionRoot).helpers
          = some ⟨object.id⟩) := by
  refine ⟨?_, ?_, ?_⟩
  · intro h
    unfold addHelper
    rw [if_pos h]
  · intro h he
    unfold addHelper
    rw [if_neg (by simp [h]), if_neg (by simp [he])]
  · intro h he
    unfold addHelper
    rw [if_neg (by simp [h]), if_pos he]
    constructor
    · rfl
    · exact lookup_helpersInsert_self st.helpers selectionRoot.id ⟨object.id⟩

/-- Witness for C4's amended statement: a guard hit is a no-op, and a
    fresh eligible camera stores its helper under the root's id. -/
theorem c4_addHelper_witness :
    addHelper { emptyState with helpers := [(1, ⟨1⟩)] } camC1 rootR
      = { emptyState with helpers := [(1, ⟨1⟩)] } ∧
    List.lookup rootR.id (addHelper emptyState camC1 rootR).helpers = some ⟨camC1.id⟩ := by
  constructor
  · exact (c4_addHelper_guard_store_mismatch { emptyState with helpers := [(1, ⟨1⟩)] } camC1 rootR).1 (by decide)
  · exact ((c4_addHelper_guard_store_mismatch emptyState camC1 rootR).2.2 (by decide) (by decide)).2

/-- Counterexample for C4: addObject on a root with two helper-eligible
    children first creates the camera child's helper (helperAdded 1 fires)
    and then the point-light child's addHelper -- same selection root,
    fresh object id -- overwrites that entry, so the claimed no-op fails:
    the final map holds only the light's helper and re-running addHelper
    on a state holding the root's entry is not the identity. -/
theorem c4_helper_replacement_counterexample :
    ((addObject emptyState rootR none).1).helpers = [(0, ⟨2⟩)] ∧
    Event.helperAdded 1 ∈ ((addObject emptyState rootR none).1).events ∧
    addHelper { emptyState with helpers := [(0, ⟨1⟩)] } lightC2 rootR
      ≠ { emptyState with helpers := [(0, ⟨1⟩)] } := by
  refine ⟨?_, ?_, ?_⟩
  · simp [addObject, Node.subtreeNodes, subtreeNodesList, rootR, camC1, lightC2, addStep,
      addHelper, addGeometry, addMaterial, helpersInsert, helperEligible, emitEvent,
      emitGraphChanged, emptyState, Node.id, Node.kind, Node.geometryUuid, Node.materialUuid]
  · simp [addObject, Node.subtreeNodes, subtreeNodesList, rootR, camC1, lightC2, addStep,
      addHelper, addGeometry, addMaterial, helpersInsert, helperEligible, emitEvent,
      emitGraphChanged, emptyState, Node.id, Node.kind, Node.geometryUuid, Node.materialUuid]
  · intro hcontra
    have h2 := congrArg EditorState.helpers hcontra
    simp [addHelper, helpersInsert, helperEligible, emptyState, lightC2, rootR, Node.id,
      Node.kind, emitEvent] at h2

/-- C5 as amended: removeObject never prunes the Registry Store, so
    addObject followed immediately by removeObject on the same subtree
    leaves the geometry and material tables (hence their counts) exactly
    as they were immediately AFTER the addObject call -- not as they were
    before it, since addObject inserts the subtree's fresh uuids. -/
theorem c5_counts_unchanged_from_after_add (st : EditorState) (object : Node) (p q : Option (List Node)) :
    ((removeObject (addObject st object p).1 object q).1).geometries
        = ((addObject st object p).1).geometries ∧
    ((removeObject (addObject st object p).1 object q).1).materials
        = ((addObject st object p).1).materials :=
  removeObject_registry_store (addObject st object p).1 object q

/-- Counterexample for C5 as claimed: on a fresh editor, adding a mesh
    with one new geometry and one new material and removing it again
    leaves both counts at 1, not at the pre-addObject value 0. -/
theorem c5_counts_counterexample :
    ((removeObject (addObject emptyState meshM none).1 meshM (some [meshM])).1).geometries.length = 1 ∧
    ((removeObject (addObject emptyState meshM none).1 meshM (some [meshM])).1).materials.length = 1 ∧
    emptyState.geometries.length = 0 ∧ emptyState.materials.length = 0 := by
  refine ⟨?_, ?_, rfl, rfl⟩ <;>
  simp [addObject, removeObject, removeObjectTraverse, removeStep, removeHelper,
    removeSceneRefDependency, getComponent, Node.subtreeNodes, subtreeNodesList, meshM, addStep,
    addHelper, addGeometry, addMaterial, helpersInsert, helperEligible, emitEvent,
    emitGraphChanged, emptyState, Node.id, Node.kind, Node.geometryUuid, Node.materialUuid,
    Node.regComps, Node.genComps, sceneReferenceName, eraseById, depsDelete]

/-- Removing the head of a children sequence by its own id leaves the
    tail, which is what each iteration of the child-removal while loop
    does. -/
theorem eraseById_cons_self (c : Node) (rest : List Node) :
    eraseById (c :: rest) c.id = rest := by
  simp [eraseById]

/-- The preorder listing of a forest splits into the first root's subtree
    followed by the rest. -/
theorem subtreeNodesList_cons (c : Node) (rest : List Node) :
    subtreeNodesList (c :: rest) = c.subtreeNodes ++ subtreeNodesList rest := by
  cases c with
  | node i k g m rc gc inf sr cs =>
    simp [Node.subtreeNodes, subtreeNodesList]

/-- Traversal cleanup over nodes carrying no scene-reference component
    leaves the dependency map untouched. -/
theorem removeFold_deps_eq : ∀ (l : List Node) (st : EditorState),
    st.registry.contains sceneReferenceName = true →
    (∀ dn ∈ l, dn.regComps.find? (fun x => x.className == sceneReferenceName) = none) →
    (l.foldl removeStep st).fileDependencies = st.fileDependencies := by
  intro l
  induction l with
  | nil => intro st _ _; rfl
  | cons c rest ih =>
    intro st hreg hall
    rw [List.foldl_cons]
    have hstep := removeStep_deps_eq st c hreg (hall c (List.mem_cons_self c rest))
    have hregp : (removeStep st c).registry.contains sceneReferenceName = true := by
      obtain ⟨hs, d, tr, heq, _⟩ := removeStep_shape st c
      rw [heq]
      exact hreg
    rw [ih (removeStep st c) hregp (fun dn hdn => hall dn (List.mem_cons_of_mem _ hdn)), hstep]

/-- Effect of removeObject with a parent, with the graphChanged dispatch
    conditional on the channel's active flag (the form the batching loops
    need). -/
theorem removeObject_loop_shape (st : EditorState) (object : Node) (l : List Node) :
    ∃ hs d tr, removeObject st object (some l)
        = ({ st with
              helpers := hs
              fileDependencies := d
              events := (st.events ++ tr) ++ (Event.objectRemoved object.id ::
                (if st.graphChangedActive then [Event.graphChanged] else [])) },
           some (eraseById l object.id)) ∧
      (∀ e ∈ tr, ∃ i, e = Event.helperRemoved i) ∧
      (∀ s, depsIds d s ⊆ depsIds st.fileDependencies s) ∧
      (st.registry.contains sceneReferenceName = true →
        (∀ dn ∈ object.subtreeNodes,
          dn.regComps.find? (fun x => x.className == sceneReferenceName) = none) →
        d = st.fileDependencies) := by
  obtain ⟨hs, d, tr, heq, hp, hmono, hofl, hsub, hrem⟩ := removeFold_shape object.subtreeNodes st
  refine ⟨hs, d, tr, ?_, hp, hsub, ?_⟩
  · show (emitGraphChanged (emitEvent (removeObjectTraverse st object) (Event.objectRemoved object.id)),
        some (eraseById l object.id)) = _
    unfold removeObjectTraverse
    rw [heq]
    rw [emitGraphChanged_shape]
    simp [emitEvent, List.append_assoc]
  · intro hreg hall
    have hfd := removeFold_deps_eq object.subtreeNodes st hreg hall
    rw [heq] at hfd
    simpa using hfd

/-- The root-children removal while loop: empties the children, changes
    only helpers, dependencies and the trace, emits only
    helperRemoved/objectRemoved (plus graphChanged only while the channel
    is active), only shrinks dependent sets, and leaves the dependency map
    untouched when no removed descendant carries a scene-reference
    component. -/
theorem removeChildrenLoop_shape : ∀ (cs : List Node) (st : EditorState),
    st.sceneChildren = cs →
    ∃ hs d tr, removeChildrenLoop st cs
        = { st with
            helpers := hs
            fileDependencies := d
            sceneChildren := []
            events := st.events ++ tr } ∧
      (∀ e ∈ tr, (∃ i, e = Event.helperRemoved i) ∨ (∃ i, e = Event.objectRemoved i) ∨
        e = Event.graphChanged) ∧
      (st.graphChangedActive = false → ∀ e ∈ tr, e ≠ Event.graphChanged) ∧
      (∀ s, depsIds d s ⊆ depsIds st.fileDependencies s) ∧
      (st.registry.contains sceneReferenceName = true →
        (∀ dn ∈ subtreeNodesList cs,
          dn.regComps.find? (fun x => x.className == sceneReferenceName) = none) →
        d = st.fileDependencies) := by
  intro cs
  induction cs with
  | nil =>
    intro st hinv
    refine ⟨st.helpers, st.fileDependencies, [], ?_, by simp, by simp, fun s x hx => hx, by simp⟩
    rw [removeChildrenLoop, ← hinv]
    simp
  | cons c rest ih =>
    intro st hinv
    obtain ⟨hs1, d1, t1, heqO, hp1, hsub1, hdeq1⟩ := removeObject_loop_shape st c st.sceneChildren
    have hsc : (({ st with
        helpers := hs1
        fileDependencies := d1
        events := (st.events ++ t1) ++ (Event.objectRemoved c.id ::
          (if st.graphChangedActive then [Event.graphChanged] else [])) } : EditorState),
        some (eraseById st.sceneChildren c.id)).2.getD [] = rest := by
      rw [hinv, Option.getD_some, eraseById_cons_self]
    obtain ⟨hs2, d2, t2, heq2, hp2, hnogc2, hsub2, hdeq2⟩ :=
      ih { st with
            helpers := hs1
            fileDependencies := d1
            sceneChildren := rest
            events := (st.events ++ t1) ++ (Event.objectRemoved c.id ::
              (if st.graphChangedActive then [Event.graphChanged] else [])) } rfl
    refine ⟨hs2, d2,
      (t1 ++ (Event.objectRemoved c.id ::
        (if st.graphChangedActive then [Event.graphChanged] else []))) ++ t2, ?_, ?_, ?_, ?_, ?_⟩
    · rw [removeChildrenLoop, heqO]
      simp only [Option.getD_some]
      rw [hinv, eraseById_cons_self]
      rw [heq2]
      simp [List.append_assoc]
    · intro e he
      rcases List.mem_append.mp he with h | h
      · rcases List.mem_append.mp h with h2 | h2
        · exact Or.inl (hp1 e h2)
        · rcases List.mem_cons.mp h2 with h3 | h3
          · exact Or.inr (Or.inl ⟨c.id, h3⟩)
          · right; right
            cases hact : st.graphChangedActive
            · rw [hact] at h3; simp at h3
            · rw [hact] at h3; simpa using h3
      · exact hp2 e h
    · intro hact e he
      rcases List.mem_append.mp he with h | h
      · rcases List.mem_append.mp h with h2 | h2
        · obtain ⟨i, hi⟩ := hp1 e h2
          rw [hi]; intro hcontra; cases hcontra
        · rw [hact] at h2
          simp at h2
          rw [h2]
          intro hcontra
          cases hcontra
      · exact hnogc2 hact e h
    · intro s x hx
      exact hsub1 s (hsub2 s hx)
    · intro hreg hall
      rw [subtreeNodesList_cons] at hall
      have hall1 : ∀ dn ∈ c.subtreeNodes,
          dn.regComps.find? (fun x => x.className == sceneReferenceName) = none :=
        fun dn hdn => hall dn (List.mem_append.mpr (Or.inl hdn))
      have hall2 : ∀ dn ∈ subtreeNodesList rest,
          dn.regComps.find? (fun x => x.className == sceneReferenceName) = none :=
        fun dn hdn => hall dn (List.mem_append.mpr (Or.inr hdn))
      have hd2 := hdeq2 hreg hall2
      rw [hd2]
      exact hdeq1 hreg hall1

/-- addGeometry changes only the geometry table. -/
theorem addGeometry_shape (st : EditorState) (u : String) :
    ∃ gs, addGeometry st u = { st with geometries := gs } := by
  unfold addGeometry
  split
  · exact ⟨st.geometries, by simp⟩
  · exact ⟨st.geometries ++ [u], rfl⟩

/-- addMaterial changes only the material table. -/
theorem addMaterial_shape (st : EditorState) (u : String) :
    ∃ ms, addMaterial st u = { st with materials := ms } := by
  unfold addMaterial
  split
  · exact ⟨st.materials, by simp⟩
  · exact ⟨st.materials ++ [u], rfl⟩

/-- addHelper changes only the helper map and the trace, emitting at most
    one helperAdded. -/
theorem addHelper_shape (st : EditorState) (object selectionRoot : Node) :
    ∃ hs tr, addHelper st object selectionRoot
        = { st with helpers := hs, events := st.events ++ tr } ∧
      (∀ e ∈ tr, ∃ i, e = Event.helperAdded i) := by
  unfold addHelper
  by_cases h1 : (List.lookup object.id st.helpers).isSome = true
  · rw [if_pos h1]
    exact ⟨st.helpers, [], by simp, by simp⟩
  · rw [if_neg h1]
    by_cases h2 : helperEligible object.kind = true
    · rw [if_pos h2]
      exact ⟨helpersInsert st.helpers selectionRoot.id ⟨object.id⟩,
        [Event.helperAdded object.id], rfl, by simp⟩
    · rw [if_neg h2]
      exact ⟨st.helpers, [], by simp, by simp⟩

/-- One step of addObject's traversal changes only the geometry and
    material tables, the helper map and the trace. -/
theorem addStep_shape (object : Node) (st : EditorState) (child : Node) :
    ∃ gs ms hs tr, addStep object st child
        = { st with geometries := gs, materials := ms, helpers := hs, events := st.events ++ tr } ∧
      (∀ e ∈ tr, ∃ i, e = Event.helperAdded i) := by
  unfold addStep
  cases hg : child.geometryUuid with
  | none =>
    cases hm : child.materialUuid with
    | none =>
      dsimp only
      obtain ⟨hs, tr, e3, hp⟩ := addHelper_shape st child object
      exact ⟨st.geometries, st.materials, hs, tr, by rw [e3], hp⟩
    | some m =>
      dsimp only
      obtain ⟨ms, e2⟩ := addMaterial_shape st m
      rw [e2]
      obtain ⟨hs, tr, e3, hp⟩ := addHelper_shape { st with materials := ms } child object
      exact ⟨st.geometries, ms, hs, tr, by rw [e3], hp⟩
  | some g =>
    dsimp only
    obtain ⟨gs, e1⟩ := addGeometry_shape st g
    rw [e1]
    cases hm : child.materialUuid with
    | none =>
      dsimp only
      obtain ⟨hs, tr, e3, hp⟩ := addHelper_shape { st with geometries := gs } child object
      exact ⟨gs, st.materials, hs, tr, by rw [e3], hp⟩
    | some m =>
      dsimp only
      obtain ⟨ms, e2⟩ := addMaterial_shape { st with geometries := gs } m
      rw [e2]
      obtain ⟨hs, tr, e3, hp⟩ := addHelper_shape { st with geometries := gs, materials := ms }
        child object
      exact ⟨gs, ms, hs, tr, by rw [e3], hp⟩

/-- addObject's traversal fold: only the registry-store tables, the
    helper map and the trace change; the trace grows by helperAdded
    events. -/
theorem addFold_shape (object : Node) : ∀ (l : List Node) (st : EditorState),
    ∃ gs ms hs tr, l.foldl (addStep object) st
        = { st with geometries := gs, materials := ms, helpers := hs, events := st.events ++ tr } ∧
      (∀ e ∈ tr, ∃ i, e = Event.helperAdded i) := by
  intro l
  induction l with
  | nil =>
    intro st
    exact ⟨st.geometries, st.materials, st.helpers, [], by simp, by simp⟩
  | cons c rest ih =>
    intro st
    obtain ⟨gs1, ms1, hs1, t1, e1, hp1⟩ := addStep_shape object st c
    obtain ⟨gs2, ms2, hs2, t2, e2, hp2⟩ := ih (addStep object st c)
    rw [e1] at e2
    refine ⟨gs2, ms2, hs2, t1 ++ t2, ?_, ?_⟩
    · rw [List.foldl_cons, e1, e2, ← List.append_assoc]
    · intro e he
      rcases List.mem_append.mp he with h | h
      · exact hp1 e h
      · exact hp2 e h

/-- Effect of addObject onto the scene root: traversal effects, the
    child appended, objectAdded dispatched, then graphChanged when the
    channel is active. -/
theorem addObject_none_shape (st : EditorState) (object : Node) :
    ∃ gs ms hs tr, addObject st object none
        = ({ st with
              geometries := gs
              materials := ms
              helpers := hs
              sceneChildren := st.sceneChildren ++ [object]
              events := (st.events ++ tr) ++ (Event.objectAdded object.id ::
                (if st.graphChangedActive then [Event.graphChanged] else [])) },
           none) ∧
      (∀ e ∈ tr, ∃ i, e = Event.helperAdded i) := by
  obtain ⟨gs, ms, hs, tr, heq, hp⟩ := addFold_shape object object.subtreeNodes st
  refine ⟨gs, ms, hs, tr, ?_, hp⟩
  show (emitGraphChanged (emitEvent
      { object.subtreeNodes.foldl (addStep object) st with
        sceneChildren := (object.subtreeNodes.foldl (addStep object) st).sceneChildren ++ [object] }
      (Event.objectAdded object.id)), (none : Option (List Node))) = _
  rw [heq, emitGraphChanged_shape]
  simp [emitEvent, List.append_assoc]

/-- The source-children append loop of setScene: children appended in
    order, only the registry-store tables, helper map and trace change,
    and the trace holds only helperAdded/objectAdded (plus graphChanged
    only while the channel is active). -/
theorem addChildrenLoop_shape : ∀ (cs : List Node) (st : EditorState),
    ∃ gs ms hs tr, addChildrenLoop st cs
        = { st with
            geometries := gs
            materials := ms
            helpers := hs
            sceneChildren := st.sceneChildren ++ cs
            events := st.events ++ tr } ∧
      (∀ e ∈ tr, (∃ i, e = Event.helperAdded i) ∨ (∃ i, e = Event.objectAdded i) ∨
        e = Event.graphChanged) ∧
      (st.graphChangedActive = false → ∀ e ∈ tr, e ≠ Event.graphChanged) := by
  intro cs
  induction cs with
  | nil =>
    intro st
    refine ⟨st.geometries, st.materials, st.helpers, [], ?_, by simp, by simp⟩
    simp [addChildrenLoop]
  | cons c rest ih =>
    intro st
    obtain ⟨gs1, ms1, hs1, t1, heqO, hp1⟩ := addObject_none_shape st c
    obtain ⟨gs2, ms2, hs2, t2, heq2, hp2, hnogc2⟩ := ih (addObject st c none).1
    rw [heqO] at heq2 hnogc2
    refine ⟨gs2, ms2, hs2,
      (t1 ++ (Event.objectAdded c.id ::
        (if st.graphChangedActive then [Event.graphChanged] else []))) ++ t2, ?_, ?_, ?_⟩
    · rw [addChildrenLoop, heqO]
      simp only []
      rw [heq2]
      simp [List.append_assoc]
    · intro e he
      rcases List.mem_append.mp he with h | h
      · rcases List.mem_append.mp h with h2 | h2
        · exact Or.inl (hp1 e h2)
        · rcases List.mem_cons.mp h2 with h3 | h3
          · exact Or.inr (Or.inl ⟨c.id, h3⟩)
          · right; right
            cases hact : st.graphChangedActive
            · rw [hact] at h3; simp at h3
            · rw [hact] at h3; simpa using h3
      · exact hp2 e h
    · intro hact e he
      rcases List.mem_append.mp he with h | h
      · rcases List.mem_append.mp h with h2 | h2
        · obtain ⟨i, hi⟩ := hp1 e h2
          rw [hi]; intro hcontra; cases hcontra
        · rw [hact] at h2
          simp at h2
          rw [h2]
          intro hcontra
          cases hcontra
      · exact hnogc2 hact e h

/-- select changes only the selection and the trace. -/
theorem select_shape (st : EditorState) (o : Option Nat) :
    ∃ sel tr, select st o = { st with selected := sel, events := st.events ++ tr } ∧
      (∀ e ∈ tr, ∃ i, e = Event.objectSelected i) := by
  unfold select
  split
  · exact ⟨st.selected, [], by simp, by simp⟩
  · exact ⟨o, [Event.objectSelected o], rfl, by simp⟩

/-- Effect of clear: background/fog reset, children removed, tables
    emptied, selection cleared -- while the registry survives and the
    dependency map is exactly what the child-removal loop left. -/
theorem clear_shape (st : EditorState) :
    ∃ hs d sel tr, clear st = { st with
        background := some 0xaaaaaa
        fog := none
        helpers := hs
        geometries := []
        materials := []
        textures := []
        scripts := []
        sceneChildren := []
        fileDependencies := d
        selected := sel
        events := st.events ++ tr } ∧
      d = (removeChildrenLoop { st with background := some 0xaaaaaa, fog := none }
            ({ st with background := some 0xaaaaaa, fog := none } : EditorState).sceneChildren).fileDependencies ∧
      (st.registry.contains sceneReferenceName = true →
        (∀ dn ∈ subtreeNodesList st.sceneChildren,
          dn.regComps.find? (fun x => x.className == sceneReferenceName) = none) →
        d = st.fileDependencies) := by
  simp only [clear]
  obtain ⟨hs1, d1, t1, heqR, _, _, _, hdeqR⟩ :=
    removeChildrenLoop_shape
      ({ st with background := some 0xaaaaaa, fog := none } : EditorState).sceneChildren
      { st with background := some 0xaaaaaa, fog := none } rfl
  rw [heqR]
  unfold deselect select
  split
  · refine ⟨hs1, d1, st.selected, t1 ++ [Event.editorCleared], ?_, ?_, ?_⟩
    · simp [emitEvent, List.append_assoc]
    · simp
    · intro hreg hall
      exact hdeqR hreg hall
  · refine ⟨hs1, d1, none, t1 ++ [Event.objectSelected none, Event.editorCleared], ?_, ?_, ?_⟩
    · simp [emitEvent, List.append_assoc]
    · simp
    · intro hreg hall
      exact hdeqR hreg hall

/-- C10: clear() leaves the component-type registry unchanged and leaves
    the file-dependency map in place -- its value is exactly the one
    produced by the per-descendant scene-reference releases of the
    root-children removal loop, and it is fully unchanged when no removed
    descendant carries a scene-reference component -- while the geometry,
    material, texture and script tables are emptied. -/
theorem c10_clear_preserves_registry_and_deps (st : EditorState) :
    (clear st).registry = st.registry ∧
    (clear st).geometries = [] ∧ (clear st).materials = [] ∧
    (clear st).textures = [] ∧ (clear st).scripts = [] ∧
    (clear st).fileDependencies
      = (removeChildrenLoop { st with background := some 0xaaaaaa, fog := none }
          st.sceneChildren).fileDependencies ∧
    (st.registry.contains sceneReferenceName = true →
      (∀ dn ∈ subtreeNodesList st.sceneChildren,
        dn.regComps.find? (fun x => x.className == sceneReferenceName) = none) →
      (clear st).fileDependencies = st.fileDependencies) := by
  obtain ⟨hs, d, sel, tr, heq, hd, hdeq⟩ := clear_shape st
  refine ⟨by rw [heq], by rw [heq], by rw [heq], by rw [heq], by rw [heq], ?_, ?_⟩
  · rw [heq]
    exact hd
  · intro hreg hall
    rw [heq]
    exact hdeq hreg hall

/-- The last event of a trace ending in a singleton is that event. -/
theorem getLast_append_singleton : ∀ (l : List Event) (a : Event),
    (l ++ [a]).getLast? = some a := by
  intro l a
  induction l with
  | nil => rfl
  | cons x xs ih =>
    rw [List.cons_append]
    cases hxs : xs ++ [a] with
    | nil => exact absurd hxs (by simp)
    | cons y ys =>
      rw [List.getLast?_cons_cons, ← hxs]
      exact ih

/-- C6: setScene replaces the live root's children with exactly the
    source's children (all current children removed, all source children
    appended in order), re-enables the sceneGraphChanged channel, and its
    notification trace contains no graphChanged dispatch at all and
    exactly one sceneSet dispatch, which comes last. -/
theorem c6_setScene_batched_replacement (st : EditorState) (src : SourceScene) :
    (setScene st src).sceneChildren = src.children ∧
    (setScene st src).graphChangedActive = true ∧
    (∃ tr, (setScene st src).events = st.events ++ tr ∧
      (∀ e ∈ tr, e ≠ Event.graphChanged) ∧
      tr.count Event.sceneSet = 1 ∧
      tr.getLast? = some Event.sceneSet) := by
  simp only [setScene]
  obtain ⟨hs1, d1, t1, heqR, hpR, hnogcR, _, _⟩ :=
    removeChildrenLoop_shape
      ({ st with
          sceneUuid := src.uuid
          sceneName := src.name
          background := match src.background with
                        | some b => some b
                        | none => st.background
          fog := match src.fog with
                 | some f => some f
                 | none => st.fog
          sceneUserData := src.userData
          graphChangedActive := false } : EditorState).sceneChildren
      { st with
          sceneUuid := src.uuid
          sceneName := src.name
          background := match src.background with
                        | some b => some b
                        | none => st.background
          fog := match src.fog with
                 | some f => some f
                 | none => st.fog
          sceneUserData := src.userData
          graphChangedActive := false } rfl
  obtain ⟨gs, ms, hs2, t2, heqA, hpA, hnogcA⟩ :=
    addChildrenLoop_shape src.children
      (removeChildrenLoop
        { st with
            sceneUuid := src.uuid
            sceneName := src.name
            background := match src.background with
                          | some b => some b
                          | none => st.background
            fog := match src.fog with
                   | some f => some f
                   | none => st.fog
            sceneUserData := src.userData
            graphChangedActive := false }
        ({ st with
            sceneUuid := src.uuid
            sceneName := src.name
            background := match src.background with
                          | some b => some b
                          | none => st.background
            fog := match src.fog with
                   | some f => some f
                   | none => st.fog
            sceneUserData := src.userData
            graphChangedActive := false } : EditorState).sceneChildren)
  have hactA := hnogcA (by rw [heqR])
  rw [heqA, heqR]
  refine ⟨by simp [emitEvent], rfl, (t1 ++ t2) ++ [Event.sceneSet], ?_, ?_, ?_, ?_⟩
  · simp [emitEvent, List.append_assoc]
  · intro e he
    rcases List.mem_append.mp he with h | h
    · rcases List.mem_append.mp h with h2 | h2
      · exact hnogcR rfl e h2
      · exact hactA e h2
    · simp only [List.mem_singleton] at h
      rw [h]
      intro hcontra
      cases hcontra
  · rw [List.count_append, List.count_append]
    have hz1 : t1.count Event.sceneSet = 0 := by
      rw [List.count_eq_zero]
      intro hmem
      rcases hpR Event.sceneSet hmem with ⟨i, hi⟩ | ⟨i, hi⟩ | hi <;> cases hi
    have hz2 : t2.count Event.sceneSet = 0 := by
      rw [List.count_eq_zero]
      intro hmem
      rcases hpA Event.sceneSet hmem with ⟨i, hi⟩ | ⟨i, hi⟩ | hi <;> cases hi
    rw [hz1, hz2]
    rfl
  · exact getLast_append_singleton (t1 ++ t2) Event.sceneSet

/-- Witness for C10: clearing an editor holding one geometry, one root
    mesh child without components and one tracked dependency keeps the
    registry and the dependency entry while emptying the geometry
    table. -/
theorem c10_clear_witness :
    (clear { emptyState with
        geometries := ["g"]
        sceneChildren := [meshM]
        fileDependencies := [("U", [nodeV])] }).registry = [sceneReferenceName] ∧
    (clear { emptyState with
        geometries := ["g"]
        sceneChildren := [meshM]
        fileDependencies := [("U", [nodeV])] }).geometries = [] ∧
    (clear { emptyState with
        geometries := ["g"]
        sceneChildren := [meshM]
        fileDependencies := [("U", [nodeV])] }).fileDependencies = [("U", [nodeV])] := by
  obtain ⟨h1, h2, _, _, _, _, h7⟩ := c10_clear_preserves_registry_and_deps
    { emptyState with
        geometries := ["g"]
        sceneChildren := [meshM]
        fileDependencies := [("U", [nodeV])] }
  refine ⟨h1, h2, ?_⟩
  exact h7 (by decide) (by simp [subtreeNodesList, meshM, Node.regComps])
